import Mathlib

/-!
Verification development for the `stusb4500` driver crate.

The driver (src/lib.rs) talks to an STUSB4500 USB-PD sink controller over a
blocking I2C transport.  We shallowly embed the driver here:

* byte buffers are `List Nat` with every element `< 256`;
* `u64::to_le_bytes` / `u64::from_le_bytes` become `toLeBytes 8` / `fromLeBytes`;
* the I2C transport is an oracle: a list of pre-determined responses, one per
  transport call; every driver operation is a function from the remaining
  oracle to an outcome, the untouched tail of the oracle, and the list of
  transport calls it issued (its trace);
* the unbounded busy-poll loop `nvm_wait` is embedded with fuel equal to the
  length of the remaining oracle: each loop iteration consumes two oracle
  entries, so the fuel can never run out before the oracle does, and an
  exhausted oracle yields the distinguished outcome `blocked` (the blocking
  transport call that never returns).

The modules `registers.rs`, `pdo.rs`, `rdo.rs` are declared by lib.rs but are
not part of the sources at hand; the constants and types taken from them are
modelled from the specification and are marked as such.
-/

namespace Stusb

/-- `u64::to_le_bytes` generalised: the `k` little-endian base-256 digits of `n`
(`k = 8` for `u64`, `k = 4` for `u32`). -/
def toLeBytes : Nat → Nat → List Nat
  | 0, _ => []
  | k + 1, n => n % 256 :: toLeBytes k (n / 256)

/-- `u64::from_le_bytes`: recombine little-endian base-256 digits. -/
def fromLeBytes : List Nat → Nat
  | [] => 0
  | b :: bs => b + 256 * fromLeBytes bs

theorem length_toLeBytes (k n : Nat) : (toLeBytes k n).length = k := by
  induction k generalizing n with
  | zero => rfl
  | succ k ih => simp [toLeBytes, ih]

theorem toLeBytes_fromLeBytes (bs : List Nat) (h : ∀ b ∈ bs, b < 256) :
    toLeBytes bs.length (fromLeBytes bs) = bs := by
  induction bs with
  | nil => rfl
  | cons b bs ih =>
    have hb : b < 256 := h b (List.mem_cons_self b bs)
    have hmod : (b + 256 * fromLeBytes bs) % 256 = b := by
      omega
    have hdiv : (b + 256 * fromLeBytes bs) / 256 = fromLeBytes bs := by
      omega
    simp only [List.length_cons, toLeBytes, fromLeBytes, hmod, hdiv]
    exact congrArg (b :: ·) (ih fun x hx => h x (List.mem_cons_of_mem b hx))

theorem fromLeBytes_toLeBytes (k n : Nat) (h : n < 256 ^ k) :
    fromLeBytes (toLeBytes k n) = n := by
  induction k generalizing n with
  | zero => simp at h; simp [toLeBytes, fromLeBytes, h]
  | succ k ih =>
    have hdiv : n / 256 < 256 ^ k := by
      rw [Nat.div_lt_iff_lt_mul (by norm_num : 0 < 256)]
      calc n < 256 ^ (k + 1) := h
        _ = 256 ^ k * 256 := by rw [Nat.pow_succ]
    simp only [toLeBytes, fromLeBytes, ih (n / 256) hdiv]
    omega

/-- The parsing half of `write_nvm_bytes` (src/lib.rs:182-190): split the
40-byte buffer into five 8-byte chunks `data[x*8 .. x*8+8]` for `x` in `0..5`
and decode each as a little-endian 64-bit sector value. -/
def bytesToSectors (data : List Nat) : List Nat :=
  [fromLeBytes ((data.drop 0).take 8),
   fromLeBytes ((data.drop 8).take 8),
   fromLeBytes ((data.drop 16).take 8),
   fromLeBytes ((data.drop 24).take 8),
   fromLeBytes ((data.drop 32).take 8)]

/-- The serialising half of `get_nvm_bytes` (src/lib.rs:160-169): write
`data[x].to_le_bytes()` into `buf[x*8 .. x*8+8]` for `x` in `0..5`, i.e.
concatenate the five 8-byte little-endian encodings in index order. -/
def sectorsToBytes (s : List Nat) : List Nat :=
  toLeBytes 8 (s.getD 0 0) ++ toLeBytes 8 (s.getD 1 0) ++ toLeBytes 8 (s.getD 2 0) ++
    toLeBytes 8 (s.getD 3 0) ++ toLeBytes 8 (s.getD 4 0)

theorem sectorsToBytes_bytesToSectors (data : List Nat) (hl : data.length = 40)
    (hb : ∀ b ∈ data, b < 256) : sectorsToBytes (bytesToSectors data) = data := by
  have key : ∀ k, k + 8 ≤ 40 →
      toLeBytes 8 (fromLeBytes ((data.drop k).take 8)) = (data.drop k).take 8 := by
    intro k hk
    have hlen : ((data.drop k).take 8).length = 8 := by
      simp only [List.length_take, List.length_drop, hl]
      omega
    have hmem : ∀ b ∈ (data.drop k).take 8, b < 256 := fun b hbm =>
      hb b (List.drop_subset k data (List.take_subset 8 (data.drop k) hbm))
    calc toLeBytes 8 (fromLeBytes ((data.drop k).take 8))
        = toLeBytes ((data.drop k).take 8).length (fromLeBytes ((data.drop k).take 8)) := by
          rw [hlen]
      _ = (data.drop k).take 8 := toLeBytes_fromLeBytes _ hmem
  have hlast : (data.drop 32).take 8 = data.drop 32 :=
    List.take_of_length_le (by simp [List.length_drop, hl])
  simp only [bytesToSectors, sectorsToBytes, List.getD_cons_zero, List.getD_cons_succ]
  rw [key 0 (by omega), key 8 (by omega), key 16 (by omega), key 24 (by omega),
    key 32 (by omega), hlast]
  have e8 : (data.drop 8).drop 8 = data.drop 16 := List.drop_drop 8 8 data
  have e16 : (data.drop 16).drop 8 = data.drop 24 := List.drop_drop 8 16 data
  have e24 : (data.drop 24).drop 8 = data.drop 32 := List.drop_drop 8 24 data
  simp only [List.append_assoc]
  calc (data.drop 0).take 8 ++ ((data.drop 8).take 8 ++ ((data.drop 16).take 8 ++
        ((data.drop 24).take 8 ++ data.drop 32)))
      = data.take 8 ++ ((data.drop 8).take 8 ++ ((data.drop 16).take 8 ++
        ((data.drop 24).take 8 ++ (data.drop 24).drop 8))) := by rw [List.drop_zero, e24]
    _ = data.take 8 ++ ((data.drop 8).take 8 ++ ((data.drop 16).take 8 ++ data.drop 24)) := by
        rw [List.take_append_drop]
    _ = data.take 8 ++ ((data.drop 8).take 8 ++ ((data.drop 16).take 8 ++
        (data.drop 16).drop 8)) := by rw [e16]
    _ = data.take 8 ++ ((data.drop 8).take 8 ++ data.drop 16) := by rw [List.take_append_drop]
    _ = data.take 8 ++ ((data.drop 8).take 8 ++ (data.drop 8).drop 8) := by rw [e8]
    _ = data.take 8 ++ data.drop 8 := by rw [List.take_append_drop]
    _ = data := List.take_append_drop 8 data

/-- Rust's `<&[u8] as TryInto<[u8; 8]>>::try_into`: succeeds exactly when the
slice has length 8; `write_nvm_bytes` calls `.unwrap()` on the result, so a
`none` here is the panic branch. -/
def tryInto8 (l : List Nat) : Option (List Nat) :=
  if l.length = 8 then some l else none

/-- `write_nvm_bytes`'s parsing loop with the panic branch made explicit:
`none` models the `unwrap` panic. -/
def bytesToSectorsChecked (data : List Nat) : Option (List Nat) :=
  (tryInto8 ((data.drop 0).take 8)).bind fun c0 =>
    (tryInto8 ((data.drop 8).take 8)).bind fun c1 =>
      (tryInto8 ((data.drop 16).take 8)).bind fun c2 =>
        (tryInto8 ((data.drop 24).take 8)).bind fun c3 =>
          (tryInto8 ((data.drop 32).take 8)).bind fun c4 =>
            some [fromLeBytes c0, fromLeBytes c1, fromLeBytes c2, fromLeBytes c3,
              fromLeBytes c4]

/-- Rust's `buf[start..start+src.len()].clone_from_slice(&src)`: panics
(`none`) when the index range does not fit inside `buf`; otherwise replaces
that range of `buf` with `src`. -/
def sliceAssign (buf : List Nat) (start : Nat) (src : List Nat) : Option (List Nat) :=
  if start + src.length ≤ buf.length then
    some (buf.take start ++ src ++ buf.drop (start + src.length))
  else
    none

/-- `get_nvm_bytes`'s serialising loop with the slice-assignment panic branch
made explicit: starting from the 40-byte zero buffer, assign
`data[x].to_le_bytes()` into `buf[x*8 .. x*8+8]` for `x` in `0..5`. -/
def sectorsToBytesChecked (s : List Nat) : Option (List Nat) :=
  (sliceAssign (List.replicate 40 0) 0 (toLeBytes 8 (s.getD 0 0))).bind fun b0 =>
    (sliceAssign b0 8 (toLeBytes 8 (s.getD 1 0))).bind fun b1 =>
      (sliceAssign b1 16 (toLeBytes 8 (s.getD 2 0))).bind fun b2 =>
        (sliceAssign b2 24 (toLeBytes 8 (s.getD 3 0))).bind fun b3 =>
          sliceAssign b3 32 (toLeBytes 8 (s.getD 4 0))

theorem bytesToSectorsChecked_eq (data : List Nat) (hl : data.length = 40) :
    bytesToSectorsChecked data = some (bytesToSectors data) := by
  have hlen : ∀ k, k + 8 ≤ 40 → ((data.drop k).take 8).length = 8 := by
    intro k hk
    simp only [List.length_take, List.length_drop, hl]
    omega
  norm_num [bytesToSectorsChecked, tryInto8, hlen 0 (by omega), hlen 8 (by omega),
    hlen 16 (by omega), hlen 24 (by omega), hlen 32 (by omega), bytesToSectors, hl]

theorem sectorsToBytesChecked_eq (s : List Nat) :
    sectorsToBytesChecked s = some (sectorsToBytes s) := rfl

/-! ## Transport model

The `embedded_hal` blocking I2C transport is modelled as an oracle: a list of
pre-determined responses, one per transport call, in the order the calls are
made.  `I2CResp.ok bs` acknowledges a `write` (the payload is ignored) or
answers a `read` with the bytes `bs`; `I2CResp.fail e` makes the call return
the transport error `e`.  An exhausted oracle models a transport call that
never returns: the enclosing operation's outcome is `blocked`. -/

/-- One pre-determined transport response. -/
inductive I2CResp (E : Type) where
  | ok : List Nat → I2CResp E
  | fail : E → I2CResp E
deriving DecidableEq

/-- One transport call as the driver issues it: `wr addr bytes` is
`i2c.write(addr, bytes)`, `rd addr len` is `i2c.read(addr, buf)` with an
`len`-byte buffer. -/
inductive I2CCall where
  | wr : Nat → List Nat → I2CCall
  | rd : Nat → Nat → I2CCall
deriving DecidableEq

/-- The bus address a call is directed at. -/
def I2CCall.busAddr : I2CCall → Nat
  | .wr a _ => a
  | .rd a _ => a

/-- The driver's error type (src/lib.rs:49-54). -/
inductive Error (E : Type) where
  | I2CError : E → Error E
  | InvalidPdo : Error E
  | OutaRangePdo : Error E
deriving DecidableEq

/-- Outcome of running a driver operation against a finite oracle: it returns
a value, returns an error, or is still inside a transport call for which the
oracle holds no response (`blocked`). -/
inductive Out (E α : Type) where
  | ok : α → Out E α
  | err : Error E → Out E α
  | blocked : Out E α
deriving DecidableEq

/-- Result of a driver operation: its outcome, the unconsumed tail of the
response oracle, and the trace of transport calls it issued, in order. -/
structure Step (E α : Type) where
  out : Out E α
  resps : List (I2CResp E)
  calls : List I2CCall
deriving DecidableEq

/-- Sequencing, mirroring Rust's `?`: on `Ok` continue with the remaining
oracle, on `Err` return the error at once, on a blocked transport call stay
blocked; traces accumulate in order. -/
def andThen {E α β : Type} (s : Step E α) (f : α → List (I2CResp E) → Step E β) : Step E β :=
  match s.out with
  | .ok a =>
    let t := f a s.resps
    ⟨t.out, t.resps, s.calls ++ t.calls⟩
  | .err e => ⟨.err e, s.resps, s.calls⟩
  | .blocked => ⟨.blocked, s.resps, s.calls⟩

/-- Sequencing that discards the first result (a `?` on a `Result<(), _>`). -/
def seqU {E α : Type} (s : Step E Unit) (f : List (I2CResp E) → Step E α) : Step E α :=
  andThen s fun _ => f

/-- An operation that makes no transport call and returns `a`. -/
def pureStep {E α : Type} (a : α) (resps : List (I2CResp E)) : Step E α :=
  ⟨.ok a, resps, []⟩

/-- `i2c.write(addr, bytes)` with the driver's error mapping
(`map_err(Error::I2CError)`). -/
def i2cWriteCall {E : Type} (addr : Nat) (bytes : List Nat) (resps : List (I2CResp E)) :
    Step E Unit :=
  match resps with
  | [] => ⟨.blocked, [], [.wr addr bytes]⟩
  | .ok _ :: rest => ⟨.ok (), rest, [.wr addr bytes]⟩
  | .fail e :: rest => ⟨.err (.I2CError e), rest, [.wr addr bytes]⟩

/-- `i2c.read(addr, buf)` with `buf.len() = len`, with the driver's error
mapping; the oracle's bytes fill the buffer (padded with the zeroes the driver
initialised the buffer with). -/
def i2cReadCall {E : Type} (addr len : Nat) (resps : List (I2CResp E)) :
    Step E (List Nat) :=
  match resps with
  | [] => ⟨.blocked, [], [.rd addr len]⟩
  | .ok bs :: rest => ⟨.ok ((bs ++ List.replicate len 0).take len), rest, [.rd addr len]⟩
  | .fail e :: rest => ⟨.err (.I2CError e), rest, [.rd addr len]⟩

/-- Modelled from the spec: `registers.rs` is not among the sources at hand.
The spec fixes only a closed set of named registers with stable byte
addresses ("a closed set of named integer constants"); the numeric codes used
here are abstract distinct values standing in for the datasheet addresses. -/
inductive Register where
  | PortStatus0 | AlertStatus1 | AlertStatus1Mask | TXHeaderL | PDCommandCtrl
  | DPMPDONumb | DPMSNKPDO1 | DPMSNKPDO2 | DPMSNKPDO3 | RDORegStatus
  | CTRL0 | CTRL1 | RWBuffer | Password
deriving DecidableEq

/-- Modelled from the spec: the `register as u8` byte put on the wire. -/
def Register.code : Register → Nat
  | .PortStatus0 => 0x0D | .AlertStatus1 => 0x0B | .AlertStatus1Mask => 0x0C
  | .TXHeaderL => 0x51 | .PDCommandCtrl => 0x1A | .DPMPDONumb => 0x70
  | .DPMSNKPDO1 => 0x85 | .DPMSNKPDO2 => 0x89 | .DPMSNKPDO3 => 0x8D
  | .RDORegStatus => 0x91 | .CTRL0 => 0x96 | .CTRL1 => 0x97
  | .RWBuffer => 0x53 | .Password => 0x95

namespace CTRL0CmdMask

/-- Modelled from the spec: `CTRL0CmdMask::REQ.bits()` of `registers.rs`, the
request bit of Control0's command mask (the busy indicator). -/
def REQ : Nat := 0x10

/-- Modelled from the spec: `CTRL0CmdMask::SECT.bits()` of `registers.rs`,
the 3-bit sector-select field of Control0's command mask. -/
def SECT : Nat := 0x07

/-- Modelled from the spec: `CTRL0CmdMask::_Default.bits()` of `registers.rs`,
the base command pattern written to Control0 to launch a command. -/
def defaultBits : Nat := 0x50

end CTRL0CmdMask

/-- Modelled from the spec: the `NVMCmd` opcodes of `registers.rs` (Read,
Write-Program-Load, Erase-Sector, Program-Sector, Soft-Program-Sector),
abstract distinct byte values. -/
inductive NVMCmd where
  | Read | WritePL | EraseSector | ProgSector | SoftProgSector
deriving DecidableEq

/-- Modelled from the spec: the `NVMCmd as u8` opcode byte. -/
def NVMCmd.code : NVMCmd → Nat
  | .Read => 0x00 | .WritePL => 0x01 | .EraseSector => 0x05
  | .ProgSector => 0x06 | .SoftProgSector => 0x07

/-- `STUSB4500_ADDR` (src/lib.rs:21). -/
def STUSB4500_ADDR : Nat := 0x28

/-- The `Address` enum (src/lib.rs:24-31); `Custom` carries a `u8`. -/
inductive Address where
  | Default : Address
  | Strap : Bool → Bool → Address
  | Custom : Nat → Address
deriving DecidableEq

/-- `Address::addr` (src/lib.rs:34-40). -/
def Address.addr : Address → Nat
  | .Default => STUSB4500_ADDR
  | .Strap a1 a0 => STUSB4500_ADDR ||| (a1.toNat <<< 1) ||| (a0.toNat <<< 0)
  | .Custom a => a

/-- The driver struct minus the transport handle (the handle is represented
by the response oracle each operation consumes). -/
structure STUSB4500 where
  address : Nat
deriving DecidableEq

/-- `STUSB4500::new` (src/lib.rs:71-76): the bus address is computed from the
`Address` value once, at construction. -/
def STUSB4500.new (address : Address) : STUSB4500 :=
  ⟨address.addr⟩

/-! ## Register access layer (src/lib.rs:259-325)

Each driver operation below is parameterised by the fixed bus address the
constructor stored; the Rust methods read it from the immutable field
`self.address`. -/

/-- `write` (src/lib.rs:260-265): one transport write of `[register, value]`. -/
def write {E : Type} (addr : Nat) (register : Register) (value : Nat)
    (resps : List (I2CResp E)) : Step E Unit :=
  i2cWriteCall addr [register.code, value] resps

/-- `write_word` (src/lib.rs:268-275): one transport write of the register
byte followed by the 4 little-endian bytes of the word. -/
def writeWord {E : Type} (addr : Nat) (register : Register) (word : Nat)
    (resps : List (I2CResp E)) : Step E Unit :=
  i2cWriteCall addr (register.code :: toLeBytes 4 word) resps

/-- `write_double_word` (src/lib.rs:278-289): register byte followed by the 8
little-endian bytes of the double word. -/
def writeDoubleWord {E : Type} (addr : Nat) (register : Register) (word : Nat)
    (resps : List (I2CResp E)) : Step E Unit :=
  i2cWriteCall addr (register.code :: toLeBytes 8 word) resps

/-- `read` (src/lib.rs:292-301): write the register byte, read 1 byte, return
it. -/
def readReg {E : Type} (addr : Nat) (register : Register)
    (resps : List (I2CResp E)) : Step E Nat :=
  seqU (i2cWriteCall addr [register.code] resps) fun r =>
    andThen (i2cReadCall addr 1 r) fun buf r2 =>
      pureStep (buf.getD 0 0) r2

/-- `read_word` (src/lib.rs:304-313): write the register byte, read 4 bytes,
decode little-endian. -/
def readWord {E : Type} (addr : Nat) (register : Register)
    (resps : List (I2CResp E)) : Step E Nat :=
  seqU (i2cWriteCall addr [register.code] resps) fun r =>
    andThen (i2cReadCall addr 4 r) fun buf r2 =>
      pureStep (fromLeBytes buf) r2

/-- `read_double_word` (src/lib.rs:316-325): write the register byte, read 8
bytes, decode little-endian. -/
def readDoubleWord {E : Type} (addr : Nat) (register : Register)
    (resps : List (I2CResp E)) : Step E Nat :=
  seqU (i2cWriteCall addr [register.code] resps) fun r =>
    andThen (i2cReadCall addr 8 r) fun buf r2 =>
      pureStep (fromLeBytes buf) r2

/-! ## NVM helper functions (src/lib.rs:195-254) -/

/-- The loop body of `nvm_wait`, with fuel.  One iteration is one `read` of
`CTRL0` (two transport calls); at fuel 0 the poll is still running, so the
outcome is `blocked`. -/
def nvmWaitAux {E : Type} (addr : Nat) : Nat → List (I2CResp E) → Step E Unit
  | 0, resps => ⟨.blocked, resps, []⟩
  | fuel + 1, resps =>
    andThen (readReg addr .CTRL0 resps) fun value r =>
      if value &&& CTRL0CmdMask.REQ = 0 then pureStep () r else nvmWaitAux addr fuel r

/-- `nvm_wait` (src/lib.rs:195-206): busy-poll `CTRL0` until the `REQ` bit is
clear.  The Rust loop is unbounded; here the fuel is the length of the
remaining oracle, which can never be exhausted before the oracle itself
(each iteration consumes two oracle entries), so this embedding agrees with
the unbounded loop on every finite oracle and yields `blocked` when the
oracle runs dry mid-poll. -/
def nvmWait {E : Type} (addr : Nat) (resps : List (I2CResp E)) : Step E Unit :=
  nvmWaitAux addr resps.length resps

/-- `set_nvm_lock` (src/lib.rs:208-215): write the lock password `0x00` or
the unlock password `0x47` to the password register, then `nvm_wait`. -/
def setNvmLock {E : Type} (addr : Nat) (lock : Bool) (resps : List (I2CResp E)) :
    Step E Unit :=
  seqU (if lock then write addr .Password 0x00 resps else write addr .Password 0x47 resps)
    fun r => nvmWait addr r

/-- `delete_nvm` (src/lib.rs:217-229): three full command cycles — first
`CTRL1 <- 0xFA` (the literal erase-sector-mask byte in lib.rs:218), then
`CTRL1 <- SoftProgSector`, then `CTRL1 <- EraseSector` — each followed by
writing the default command bits to `CTRL0` and polling idle. -/
def deleteNvm {E : Type} (addr : Nat) (resps : List (I2CResp E)) : Step E Unit :=
  seqU (write addr .CTRL1 0xFA resps) fun r1 =>
    seqU (write addr .CTRL0 CTRL0CmdMask.defaultBits r1) fun r2 =>
      seqU (nvmWait addr r2) fun r3 =>
        seqU (write addr .CTRL1 NVMCmd.SoftProgSector.code r3) fun r4 =>
          seqU (write addr .CTRL0 CTRL0CmdMask.defaultBits r4) fun r5 =>
            seqU (nvmWait addr r5) fun r6 =>
              seqU (write addr .CTRL1 NVMCmd.EraseSector.code r6) fun r7 =>
                seqU (write addr .CTRL0 CTRL0CmdMask.defaultBits r7) fun r8 =>
                  seqU (nvmWait addr r8) fun r9 =>
                    pureStep () r9

/-- `write_nvm_sector` (src/lib.rs:231-244): stage the 8 little-endian data
bytes in the RW buffer, issue Write-Program-Load (poll idle), then issue
Program-Sector with the sector's select bits (poll idle). -/
def writeNvmSector {E : Type} (addr sector data : Nat) (resps : List (I2CResp E)) :
    Step E Unit :=
  seqU (writeDoubleWord addr .RWBuffer data resps) fun r1 =>
    seqU (write addr .CTRL1 NVMCmd.WritePL.code r1) fun r2 =>
      seqU (write addr .CTRL0 CTRL0CmdMask.defaultBits r2) fun r3 =>
        seqU (nvmWait addr r3) fun r4 =>
          seqU (write addr .CTRL1 NVMCmd.ProgSector.code r4) fun r5 =>
            seqU (write addr .CTRL0
                (CTRL0CmdMask.defaultBits ||| (sector &&& CTRL0CmdMask.SECT)) r5) fun r6 =>
              seqU (nvmWait addr r6) fun r7 =>
                pureStep () r7

/-- `read_nvm_sector` (src/lib.rs:246-254): issue the Read opcode, write
`CTRL0` with the default command bits together with the sector-select bits,
poll idle, then read the 8-byte RW buffer. -/
def readNvmSector {E : Type} (addr sector : Nat) (resps : List (I2CResp E)) :
    Step E Nat :=
  seqU (write addr .CTRL1 NVMCmd.Read.code resps) fun r1 =>
    seqU (write addr .CTRL0
        (CTRL0CmdMask.defaultBits ||| (sector &&& CTRL0CmdMask.SECT)) r1) fun r2 =>
      seqU (nvmWait addr r2) fun r3 =>
        readDoubleWord addr .RWBuffer r3

/-- The `for x in 0..5` loop of `get_nvm` (src/lib.rs:147-154), collecting
the sector values in index order; any sector error aborts the loop. -/
def getNvmLoop {E : Type} (addr : Nat) : List Nat → List (I2CResp E) → Step E (List Nat)
  | [], resps => pureStep [] resps
  | x :: xs, resps =>
    andThen (readNvmSector addr x resps) fun v r =>
      andThen (getNvmLoop addr xs r) fun vs r2 =>
        pureStep (v :: vs) r2

/-- `get_nvm` (src/lib.rs:144-158): unlock, read sectors `0..5` in order,
lock, return the five sector values. -/
def getNvm {E : Type} (addr : Nat) (resps : List (I2CResp E)) : Step E (List Nat) :=
  seqU (setNvmLock addr false resps) fun r1 =>
    andThen (getNvmLoop addr [0, 1, 2, 3, 4] r1) fun buf r2 =>
      seqU (setNvmLock addr true r2) fun r3 =>
        pureStep buf r3

/-- `get_nvm_bytes` (src/lib.rs:160-169): `get_nvm`, then the pure
serialisation `sectorsToBytes`. -/
def getNvmBytes {E : Type} (addr : Nat) (resps : List (I2CResp E)) : Step E (List Nat) :=
  andThen (getNvm addr resps) fun data r =>
    pureStep (sectorsToBytes data) r

/-- The `for x in 0..5` loop of `write_nvm` (src/lib.rs:174-176). -/
def writeNvmLoop {E : Type} (addr : Nat) (data : List Nat) :
    List Nat → List (I2CResp E) → Step E Unit
  | [], resps => pureStep () resps
  | x :: xs, resps =>
    seqU (writeNvmSector addr x (data.getD x 0) resps) fun r =>
      writeNvmLoop addr data xs r

/-- `write_nvm` (src/lib.rs:171-180): unlock, erase, program sectors `0..5`
in order, lock. -/
def writeNvm {E : Type} (addr : Nat) (data : List Nat) (resps : List (I2CResp E)) :
    Step E Unit :=
  seqU (setNvmLock addr false resps) fun r1 =>
    seqU (deleteNvm addr r1) fun r2 =>
      seqU (writeNvmLoop addr data [0, 1, 2, 3, 4] r2) fun r3 =>
        seqU (setNvmLock addr true r3) fun r4 =>
          pureStep () r4

/-- `write_nvm_bytes` (src/lib.rs:182-190): parse the 40 bytes into five
little-endian sector values, then `write_nvm`. -/
def writeNvmBytes {E : Type} (addr : Nat) (data : List Nat) (resps : List (I2CResp E)) :
    Step E Unit :=
  writeNvm addr (bytesToSectors data) resps

/-! ## PDO facade (src/lib.rs:108-142) -/

/-- Modelled from the spec: the `Pdo` type of `pdo.rs` is a tagged variant of
the USB-PD wire shapes of which only `Fixed` (voltage, current, flag bits, in
device units) is legal for this driver's write path. -/
inductive Pdo where
  | Fixed : Nat → Nat → Nat → Pdo
  | Variable : Nat → Pdo
  | Battery : Nat → Pdo
deriving DecidableEq

/-- Whether the variant is `Fixed` (the `if let Pdo::Fixed { .. }` test of
src/lib.rs:109). -/
def Pdo.isFixed : Pdo → Bool
  | .Fixed _ _ _ => true
  | _ => false

/-- Modelled from the spec: `Pdo::bits`, the 32-bit wire encoding — fields
packed into fixed bit positions (10-bit voltage at bit 10, 10-bit current at
bit 0, flag bits above, with the Fixed type selector `00` in the top bits). -/
def Pdo.bits : Pdo → Nat
  | .Fixed voltage current flags =>
    ((flags % 2 ^ 10) <<< 20 ||| (voltage % 2 ^ 10) <<< 10 ||| current % 2 ^ 10) % 2 ^ 32
  | .Variable raw => (2 <<< 30 ||| raw % 2 ^ 30) % 2 ^ 32
  | .Battery raw => (1 <<< 30 ||| raw % 2 ^ 30) % 2 ^ 32

/-- `PdoChannel` (src/lib.rs:56-60). -/
inductive PdoChannel where
  | PDO1 | PDO2 | PDO3
deriving DecidableEq

/-- The register slot the channel selects (the `match pdo` of
src/lib.rs:111-115). -/
def PdoChannel.reg : PdoChannel → Register
  | .PDO1 => .DPMSNKPDO1
  | .PDO2 => .DPMSNKPDO2
  | .PDO3 => .DPMSNKPDO3

/-- `set_pdo` (src/lib.rs:108-122): a Fixed PDO's 32-bit encoding is written
to the channel's register slot; any other variant is rejected with
`InvalidPdo` before any transport call. -/
def setPdo {E : Type} (addr : Nat) (pdo : PdoChannel) (data : Pdo)
    (resps : List (I2CResp E)) : Step E Unit :=
  match data with
  | .Fixed _ _ _ => writeWord addr pdo.reg data.bits resps
  | _ => ⟨.err .InvalidPdo, resps, []⟩

/-- `set_num_pdo` (src/lib.rs:137-142): counts `1..=3` are written to
`DPMPDONumb`; anything else is rejected with `OutaRangePdo` before any
transport call. -/
def setNumPdo {E : Type} (addr num : Nat) (resps : List (I2CResp E)) : Step E Unit :=
  if 1 ≤ num ∧ num ≤ 3 then write addr .DPMPDONumb num resps
  else ⟨.err .OutaRangePdo, resps, []⟩

/-! ## Canonical responsive-device oracles and traces

`…R` definitions are oracle fragments for a device that acknowledges every
write and reports idle (`REQ` clear, byte `0`) at every poll; the `…Calls`
definitions are the corresponding expected call traces. -/

/-- The two transport calls of one `nvm_wait` poll iteration. -/
def pollOnce (addr : Nat) : List I2CCall :=
  [.wr addr [Register.CTRL0.code], .rd addr 1]

/-- Trace of one NVM command cycle: opcode into `CTRL1`, command bits into
`CTRL0`, one idle poll. -/
def cmdCycle (addr op ctrl0 : Nat) : List I2CCall :=
  [.wr addr [Register.CTRL1.code, op], .wr addr [Register.CTRL0.code, ctrl0]] ++ pollOnce addr

/-- Trace of `write_nvm_sector addr x d` on a responsive idle device. -/
def progSectorCalls (addr x d : Nat) : List I2CCall :=
  [.wr addr (Register.RWBuffer.code :: toLeBytes 8 d)] ++
    cmdCycle addr NVMCmd.WritePL.code CTRL0CmdMask.defaultBits ++
    cmdCycle addr NVMCmd.ProgSector.code
      (CTRL0CmdMask.defaultBits ||| (x &&& CTRL0CmdMask.SECT))

/-- Trace of `read_nvm_sector addr x` on a responsive idle device. -/
def readSectorCalls (addr x : Nat) : List I2CCall :=
  cmdCycle addr NVMCmd.Read.code (CTRL0CmdMask.defaultBits ||| (x &&& CTRL0CmdMask.SECT)) ++
    [.wr addr [Register.RWBuffer.code], .rd addr 8]

/-- Trace of `set_nvm_lock addr false` on a responsive idle device. -/
def unlockCalls (addr : Nat) : List I2CCall :=
  .wr addr [Register.Password.code, 0x47] :: pollOnce addr

/-- Trace of `set_nvm_lock addr true` on a responsive idle device. -/
def lockCalls (addr : Nat) : List I2CCall :=
  .wr addr [Register.Password.code, 0x00] :: pollOnce addr

/-- Oracle fragment answering `set_nvm_lock`: write acknowledged, one idle
poll. -/
def lockR {E : Type} : List (I2CResp E) :=
  [.ok [], .ok [], .ok [0]]

/-- Oracle fragment answering one NVM command cycle. -/
def cycleR {E : Type} : List (I2CResp E) :=
  [.ok [], .ok [], .ok [], .ok [0]]

/-- Oracle fragment answering `write_nvm_sector`. -/
def progSectorR {E : Type} : List (I2CResp E) :=
  [.ok [], .ok [], .ok [], .ok [], .ok [0], .ok [], .ok [], .ok [], .ok [0]]

/-- Oracle fragment answering `read_nvm_sector`, handing out the sector bytes
`bs`. -/
def readSectorR {E : Type} (bs : List Nat) : List (I2CResp E) :=
  [.ok [], .ok [], .ok [], .ok [0], .ok [], .ok bs]

/-- Oracle for a whole `write_nvm` against a responsive idle device. -/
def writeNvmR {E : Type} (rest : List (I2CResp E)) : List (I2CResp E) :=
  lockR ++ cycleR ++ cycleR ++ cycleR ++ progSectorR ++ progSectorR ++ progSectorR ++
    progSectorR ++ progSectorR ++ lockR ++ rest

/-- Oracle for a whole `get_nvm` against a responsive idle device whose five
sectors hold the byte strings `b0 … b4`. -/
def getNvmR {E : Type} (b0 b1 b2 b3 b4 : List Nat) (rest : List (I2CResp E)) :
    List (I2CResp E) :=
  lockR ++ readSectorR b0 ++ readSectorR b1 ++ readSectorR b2 ++ readSectorR b3 ++
    readSectorR b4 ++ lockR ++ rest

/-- The full call trace of `write_nvm` on a responsive idle device, as the
code performs it: unlock, the `0xFA` erase-mask cycle, the Soft-Program-Sector
cycle, the Erase-Sector cycle, the five sector programming sequences in index
order, lock. -/
def writeNvmCalls (addr d0 d1 d2 d3 d4 : Nat) : List I2CCall :=
  unlockCalls addr ++
    cmdCycle addr 0xFA CTRL0CmdMask.defaultBits ++
    cmdCycle addr NVMCmd.SoftProgSector.code CTRL0CmdMask.defaultBits ++
    cmdCycle addr NVMCmd.EraseSector.code CTRL0CmdMask.defaultBits ++
    progSectorCalls addr 0 d0 ++ progSectorCalls addr 1 d1 ++ progSectorCalls addr 2 d2 ++
    progSectorCalls addr 3 d3 ++ progSectorCalls addr 4 d4 ++
    lockCalls addr

/-- The call trace claimed by the specification for `write_nvm`: as
`writeNvmCalls` but with an erase phase of only the Soft-Program-Sector and
Erase-Sector cycles, without the code's initial `0xFA` erase-mask cycle.
This definition follows the spec's words, for comparison with the code. -/
def writeNvmCallsClaimed (addr d0 d1 d2 d3 d4 : Nat) : List I2CCall :=
  unlockCalls addr ++
    cmdCycle addr NVMCmd.SoftProgSector.code CTRL0CmdMask.defaultBits ++
    cmdCycle addr NVMCmd.EraseSector.code CTRL0CmdMask.defaultBits ++
    progSectorCalls addr 0 d0 ++ progSectorCalls addr 1 d1 ++ progSectorCalls addr 2 d2 ++
    progSectorCalls addr 3 d3 ++ progSectorCalls addr 4 d4 ++
    lockCalls addr

/-- The full call trace of `get_nvm` on a responsive idle device: unlock, the
five sector read sequences in index order, lock. -/
def getNvmCalls (addr : Nat) : List I2CCall :=
  unlockCalls addr ++
    readSectorCalls addr 0 ++ readSectorCalls addr 1 ++ readSectorCalls addr 2 ++
    readSectorCalls addr 3 ++ readSectorCalls addr 4 ++
    lockCalls addr

theorem setNvmLock_false_idle {E : Type} (addr : Nat) (a b : List Nat)
    (rest : List (I2CResp E)) :
    setNvmLock addr false (.ok a :: .ok b :: .ok [0] :: rest) =
      ⟨.ok (), rest, unlockCalls addr⟩ := rfl

theorem setNvmLock_true_idle {E : Type} (addr : Nat) (a b : List Nat)
    (rest : List (I2CResp E)) :
    setNvmLock addr true (.ok a :: .ok b :: .ok [0] :: rest) =
      ⟨.ok (), rest, lockCalls addr⟩ := rfl

theorem seqU_mk_ok {E α : Type} (r : List (I2CResp E)) (c : List I2CCall)
    (f : List (I2CResp E) → Step E α) :
    seqU ⟨.ok (), r, c⟩ f = ⟨(f r).out, (f r).resps, c ++ (f r).calls⟩ := rfl

theorem andThen_mk_ok {E α β : Type} (a : α) (r : List (I2CResp E)) (c : List I2CCall)
    (f : α → List (I2CResp E) → Step E β) :
    andThen ⟨.ok a, r, c⟩ f = ⟨(f a r).out, (f a r).resps, c ++ (f a r).calls⟩ := rfl

theorem write_ok {E : Type} (addr : Nat) (reg : Register) (v : Nat) (a : List Nat)
    (rest : List (I2CResp E)) :
    write addr reg v (.ok a :: rest) = ⟨.ok (), rest, [.wr addr [reg.code, v]]⟩ := rfl

theorem writeDoubleWord_ok {E : Type} (addr : Nat) (reg : Register) (w : Nat)
    (a : List Nat) (rest : List (I2CResp E)) :
    writeDoubleWord addr reg w (.ok a :: rest) =
      ⟨.ok (), rest, [.wr addr (reg.code :: toLeBytes 8 w)]⟩ := rfl

theorem readDoubleWord_ok {E : Type} (addr : Nat) (reg : Register) (a bs : List Nat)
    (rest : List (I2CResp E)) :
    readDoubleWord addr reg (.ok a :: .ok bs :: rest) =
      ⟨.ok (fromLeBytes ((bs ++ List.replicate 8 0).take 8)), rest,
        [.wr addr [reg.code], .rd addr 8]⟩ := rfl

theorem nvmWait_idle {E : Type} (addr : Nat) (a : List Nat) (rest : List (I2CResp E)) :
    nvmWait addr (.ok a :: .ok [0] :: rest) = ⟨.ok (), rest, pollOnce addr⟩ := rfl

theorem deleteNvm_idle {E : Type} (addr : Nat) (rest : List (I2CResp E)) :
    deleteNvm addr (cycleR ++ (cycleR ++ (cycleR ++ rest))) =
      ⟨.ok (), rest,
        cmdCycle addr 0xFA CTRL0CmdMask.defaultBits ++
          cmdCycle addr NVMCmd.SoftProgSector.code CTRL0CmdMask.defaultBits ++
          cmdCycle addr NVMCmd.EraseSector.code CTRL0CmdMask.defaultBits⟩ := by
  simp only [deleteNvm, cycleR, List.cons_append, List.nil_append, write_ok, nvmWait_idle,
    seqU_mk_ok, pureStep, cmdCycle, pollOnce, List.append_assoc]

theorem writeNvmSector_idle {E : Type} (addr x d : Nat) (rest : List (I2CResp E)) :
    writeNvmSector addr x d (progSectorR ++ rest) =
      ⟨.ok (), rest, progSectorCalls addr x d⟩ := by
  simp only [writeNvmSector, progSectorR, List.cons_append, List.nil_append, write_ok,
    writeDoubleWord_ok, nvmWait_idle, seqU_mk_ok, pureStep, progSectorCalls, cmdCycle,
    pollOnce, List.append_assoc]

theorem readNvmSector_idle {E : Type} (addr x : Nat) (bs : List Nat)
    (rest : List (I2CResp E)) :
    readNvmSector addr x (readSectorR bs ++ rest) =
      ⟨.ok (fromLeBytes ((bs ++ List.replicate 8 0).take 8)), rest,
        readSectorCalls addr x⟩ := by
  simp only [readNvmSector, readSectorR, List.cons_append, List.nil_append, write_ok,
    readDoubleWord_ok, nvmWait_idle, seqU_mk_ok, pureStep, readSectorCalls, cmdCycle,
    pollOnce, List.append_assoc]

/-- Helper: full run of `write_nvm` against a responsive idle device, for any
sector values: the outcome is success, the oracle beyond the sequence is
untouched, and the trace is exactly `writeNvmCalls`. -/
theorem writeNvm_idle_run {E : Type} (addr d0 d1 d2 d3 d4 : Nat)
    (rest : List (I2CResp E)) :
    writeNvm addr [d0, d1, d2, d3, d4] (writeNvmR rest) =
      ⟨.ok (), rest, writeNvmCalls addr d0 d1 d2 d3 d4⟩ := by
  have hlock : ∀ rest' : List (I2CResp E), lockR ++ rest' =
      .ok [] :: .ok [] :: .ok [0] :: rest' := fun _ => rfl
  simp only [writeNvm, writeNvmR, List.append_assoc, List.cons_append, List.nil_append,
    hlock, writeNvmLoop, List.getD_cons_zero, List.getD_cons_succ, setNvmLock_false_idle,
    setNvmLock_true_idle, seqU_mk_ok, deleteNvm_idle, writeNvmSector_idle, pureStep,
    writeNvmCalls, List.append_nil]

/-- Helper: full run of `get_nvm` against a responsive idle device whose five
sectors hold the byte strings `b0 … b4`. -/
theorem getNvm_idle_run {E : Type} (addr : Nat) (b0 b1 b2 b3 b4 : List Nat)
    (rest : List (I2CResp E)) :
    getNvm addr (getNvmR b0 b1 b2 b3 b4 rest) =
      ⟨.ok [fromLeBytes ((b0 ++ List.replicate 8 0).take 8),
        fromLeBytes ((b1 ++ List.replicate 8 0).take 8),
        fromLeBytes ((b2 ++ List.replicate 8 0).take 8),
        fromLeBytes ((b3 ++ List.replicate 8 0).take 8),
        fromLeBytes ((b4 ++ List.replicate 8 0).take 8)], rest, getNvmCalls addr⟩ := by
  have hlock : ∀ rest' : List (I2CResp E), lockR ++ rest' =
      .ok [] :: .ok [] :: .ok [0] :: rest' := fun _ => rfl
  simp only [getNvm, getNvmR, List.append_assoc, List.cons_append, List.nil_append,
    hlock, getNvmLoop, setNvmLock_false_idle, setNvmLock_true_idle, seqU_mk_ok,
    andThen_mk_ok, readNvmSector_idle, pureStep, getNvmCalls, List.append_nil]

/-- The 8 little-endian bytes of a sector value pass through the read buffer
unchanged. -/
theorem take_eight_toLeBytes (v : Nat) :
    (toLeBytes 8 v ++ List.replicate 8 0).take 8 = toLeBytes 8 v := by
  rw [List.take_append_of_le_length (by rw [length_toLeBytes]),
    List.take_of_length_le (by rw [length_toLeBytes])]

/-! ## Abort and addressing invariants

`StepOk addr resps s` says the result `s` of running an operation against the
oracle `resps` is well-behaved: the operation consumed a prefix of the oracle
and left the rest untouched; unless it is blocked inside a transport call, it
issued exactly one call per consumed response (so nothing happens after the
last consumed response); if it ended in a transport error, the last consumed
response is exactly that failure (the error is propagated immediately); and
every call it issued is directed at the fixed bus address `addr`. -/
def StepOk {E α : Type} (addr : Nat) (resps : List (I2CResp E)) (s : Step E α) : Prop :=
  ∃ pre, resps = pre ++ s.resps ∧
    (s.out ≠ .blocked → s.calls.length = pre.length) ∧
    (∀ e, s.out = .err (.I2CError e) → ∃ q, pre = q ++ [.fail e]) ∧
    (∀ c ∈ s.calls, c.busAddr = addr)

theorem stepOk_pure {E α : Type} (addr : Nat) (a : α) (resps : List (I2CResp E)) :
    StepOk addr resps (pureStep a resps) := by
  refine ⟨[], rfl, fun _ => rfl, fun e h => ?_, fun c hc => ?_⟩
  · simp [pureStep] at h
  · simp [pureStep] at hc

theorem stepOk_i2cWrite {E : Type} (addr : Nat) (bytes : List Nat)
    (resps : List (I2CResp E)) : StepOk addr resps (i2cWriteCall addr bytes resps) := by
  match resps with
  | [] =>
    refine ⟨[], rfl, fun h => absurd rfl h, fun e h => ?_, fun c hc => ?_⟩
    · simp [i2cWriteCall] at h
    · simp [i2cWriteCall] at hc
      simp [hc, I2CCall.busAddr]
  | .ok v :: rest =>
    refine ⟨[.ok v], rfl, fun _ => rfl, fun e h => ?_, fun c hc => ?_⟩
    · simp [i2cWriteCall] at h
    · simp [i2cWriteCall] at hc
      simp [hc, I2CCall.busAddr]
  | .fail e' :: rest =>
    refine ⟨[.fail e'], rfl, fun _ => rfl, fun e h => ?_, fun c hc => ?_⟩
    · simp [i2cWriteCall] at h
      simp [h]
    · simp [i2cWriteCall] at hc
      simp [hc, I2CCall.busAddr]

theorem stepOk_i2cRead {E : Type} (addr len : Nat)
    (resps : List (I2CResp E)) : StepOk addr resps (i2cReadCall addr len resps) := by
  match resps with
  | [] =>
    refine ⟨[], rfl, fun h => absurd rfl h, fun e h => ?_, fun c hc => ?_⟩
    · simp [i2cReadCall] at h
    · simp [i2cReadCall] at hc
      simp [hc, I2CCall.busAddr]
  | .ok v :: rest =>
    refine ⟨[.ok v], rfl, fun _ => rfl, fun e h => ?_, fun c hc => ?_⟩
    · simp [i2cReadCall] at h
    · simp [i2cReadCall] at hc
      simp [hc, I2CCall.busAddr]
  | .fail e' :: rest =>
    refine ⟨[.fail e'], rfl, fun _ => rfl, fun e h => ?_, fun c hc => ?_⟩
    · simp [i2cReadCall] at h
      simp [h]
    · simp [i2cReadCall] at hc
      simp [hc, I2CCall.busAddr]

theorem stepOk_andThen {E α β : Type} {addr : Nat} {resps : List (I2CResp E)}
    {s : Step E α} {f : α → List (I2CResp E) → Step E β}
    (h1 : StepOk addr resps s)
    (h2 : ∀ a, s.out = .ok a → StepOk addr s.resps (f a s.resps)) :
    StepOk addr resps (andThen s f) := by
  obtain ⟨pre1, hpre1, hlen1, herr1, haddr1⟩ := h1
  match hout : s.out with
  | .ok a =>
    obtain ⟨pre2, hpre2, hlen2, herr2, haddr2⟩ := h2 a hout
    refine ⟨pre1 ++ pre2, ?_, ?_, ?_, ?_⟩ <;>
      simp only [andThen, hout]
    · simp only [List.append_assoc]
      conv_lhs => rw [hpre1, hpre2]
    · intro hb
      simp only [List.length_append]
      rw [hlen1 (by simp [hout]), hlen2 hb]
    · intro e he
      obtain ⟨q, hq⟩ := herr2 e he
      exact ⟨pre1 ++ q, by rw [hq, List.append_assoc]⟩
    · intro c hc
      rcases List.mem_append.mp hc with h | h
      · exact haddr1 c h
      · exact haddr2 c h
  | .err e' =>
    refine ⟨pre1, ?_, ?_, ?_, ?_⟩ <;>
      simp only [andThen, hout]
    · exact hpre1
    · intro _
      exact hlen1 (by simp [hout])
    · intro e he
      cases he
      exact herr1 e (by rw [hout])
    · exact haddr1
  | .blocked =>
    refine ⟨pre1, ?_, ?_, ?_, ?_⟩ <;>
      simp only [andThen, hout]
    · exact hpre1
    · intro hb
      exact absurd rfl hb
    · intro e he
      cases he
    · exact haddr1

theorem stepOk_seqU {E α : Type} {addr : Nat} {resps : List (I2CResp E)}
    {s : Step E Unit} {f : List (I2CResp E) → Step E α}
    (h1 : StepOk addr resps s) (h2 : s.out = .ok () → StepOk addr s.resps (f s.resps)) :
    StepOk addr resps (seqU s f) :=
  stepOk_andThen h1 fun a ha => by cases a; exact h2 ha

theorem stepOk_write {E : Type} (addr : Nat) (reg : Register) (v : Nat)
    (resps : List (I2CResp E)) : StepOk addr resps (write addr reg v resps) :=
  stepOk_i2cWrite addr _ resps

theorem stepOk_writeWord {E : Type} (addr : Nat) (reg : Register) (w : Nat)
    (resps : List (I2CResp E)) : StepOk addr resps (writeWord addr reg w resps) :=
  stepOk_i2cWrite addr _ resps

theorem stepOk_writeDoubleWord {E : Type} (addr : Nat) (reg : Register) (w : Nat)
    (resps : List (I2CResp E)) : StepOk addr resps (writeDoubleWord addr reg w resps) :=
  stepOk_i2cWrite addr _ resps

theorem stepOk_readReg {E : Type} (addr : Nat) (reg : Register)
    (resps : List (I2CResp E)) : StepOk addr resps (readReg addr reg resps) :=
  stepOk_seqU (stepOk_i2cWrite addr _ resps) fun _ =>
    stepOk_andThen (stepOk_i2cRead addr 1 _) fun _ _ => stepOk_pure addr _ _

theorem stepOk_readDoubleWord {E : Type} (addr : Nat) (reg : Register)
    (resps : List (I2CResp E)) : StepOk addr resps (readDoubleWord addr reg resps) :=
  stepOk_seqU (stepOk_i2cWrite addr _ resps) fun _ =>
    stepOk_andThen (stepOk_i2cRead addr 8 _) fun _ _ => stepOk_pure addr _ _

theorem stepOk_nvmWaitAux {E : Type} (addr : Nat) (fuel : Nat)
    (resps : List (I2CResp E)) : StepOk addr resps (nvmWaitAux addr fuel resps) := by
  induction fuel generalizing resps with
  | zero =>
    exact ⟨[], rfl, fun h => absurd rfl h, fun e he => by simp [nvmWaitAux] at he,
      fun c hc => by simp [nvmWaitAux] at hc⟩
  | succ fuel ih =>
    refine stepOk_andThen (stepOk_readReg addr .CTRL0 resps) fun v _ => ?_
    by_cases h : v &&& CTRL0CmdMask.REQ = 0
    · rw [if_pos h]
      exact stepOk_pure addr _ _
    · rw [if_neg h]
      exact ih _

theorem stepOk_nvmWait {E : Type} (addr : Nat) (resps : List (I2CResp E)) :
    StepOk addr resps (nvmWait addr resps) :=
  stepOk_nvmWaitAux addr resps.length resps

theorem stepOk_setNvmLock {E : Type} (addr : Nat) (lock : Bool)
    (resps : List (I2CResp E)) : StepOk addr resps (setNvmLock addr lock resps) := by
  cases lock <;>
    exact stepOk_seqU (stepOk_write addr .Password _ resps) fun _ => stepOk_nvmWait addr _

theorem stepOk_deleteNvm {E : Type} (addr : Nat) (resps : List (I2CResp E)) :
    StepOk addr resps (deleteNvm addr resps) :=
  stepOk_seqU (stepOk_write addr .CTRL1 0xFA resps) fun _ =>
    stepOk_seqU (stepOk_write addr .CTRL0 _ _) fun _ =>
      stepOk_seqU (stepOk_nvmWait addr _) fun _ =>
        stepOk_seqU (stepOk_write addr .CTRL1 _ _) fun _ =>
          stepOk_seqU (stepOk_write addr .CTRL0 _ _) fun _ =>
            stepOk_seqU (stepOk_nvmWait addr _) fun _ =>
              stepOk_seqU (stepOk_write addr .CTRL1 _ _) fun _ =>
                stepOk_seqU (stepOk_write addr .CTRL0 _ _) fun _ =>
                  stepOk_seqU (stepOk_nvmWait addr _) fun _ =>
                    stepOk_pure addr _ _

theorem stepOk_writeNvmSector {E : Type} (addr sector data : Nat)
    (resps : List (I2CResp E)) : StepOk addr resps (writeNvmSector addr sector data resps) :=
  stepOk_seqU (stepOk_writeDoubleWord addr .RWBuffer data resps) fun _ =>
    stepOk_seqU (stepOk_write addr .CTRL1 _ _) fun _ =>
      stepOk_seqU (stepOk_write addr .CTRL0 _ _) fun _ =>
        stepOk_seqU (stepOk_nvmWait addr _) fun _ =>
          stepOk_seqU (stepOk_write addr .CTRL1 _ _) fun _ =>
            stepOk_seqU (stepOk_write addr .CTRL0 _ _) fun _ =>
              stepOk_seqU (stepOk_nvmWait addr _) fun _ =>
                stepOk_pure addr _ _

theorem stepOk_readNvmSector {E : Type} (addr sector : Nat)
    (resps : List (I2CResp E)) : StepOk addr resps (readNvmSector addr sector resps) :=
  stepOk_seqU (stepOk_write addr .CTRL1 _ resps) fun _ =>
    stepOk_seqU (stepOk_write addr .CTRL0 _ _) fun _ =>
      stepOk_seqU (stepOk_nvmWait addr _) fun _ =>
        stepOk_readDoubleWord addr .RWBuffer _

theorem stepOk_getNvmLoop {E : Type} (addr : Nat) (xs : List Nat)
    (resps : List (I2CResp E)) : StepOk addr resps (getNvmLoop addr xs resps) := by
  induction xs generalizing resps with
  | nil => exact stepOk_pure addr _ _
  | cons x xs ih =>
    exact stepOk_andThen (stepOk_readNvmSector addr x resps) fun v _ =>
      stepOk_andThen (ih _) fun vs _ => stepOk_pure addr _ _

theorem stepOk_writeNvmLoop {E : Type} (addr : Nat) (data : List Nat) (xs : List Nat)
    (resps : List (I2CResp E)) : StepOk addr resps (writeNvmLoop addr data xs resps) := by
  induction xs generalizing resps with
  | nil => exact stepOk_pure addr _ _
  | cons x xs ih =>
    exact stepOk_seqU (stepOk_writeNvmSector addr x _ resps) fun _ => ih _

theorem stepOk_getNvm {E : Type} (addr : Nat) (resps : List (I2CResp E)) :
    StepOk addr resps (getNvm addr resps) :=
  stepOk_seqU (stepOk_setNvmLock addr false resps) fun _ =>
    stepOk_andThen (stepOk_getNvmLoop addr _ _) fun _ _ =>
      stepOk_seqU (stepOk_setNvmLock addr true _) fun _ =>
        stepOk_pure addr _ _

theorem stepOk_writeNvm {E : Type} (addr : Nat) (data : List Nat)
    (resps : List (I2CResp E)) : StepOk addr resps (writeNvm addr data resps) :=
  stepOk_seqU (stepOk_setNvmLock addr false resps) fun _ =>
    stepOk_seqU (stepOk_deleteNvm addr _) fun _ =>
      stepOk_seqU (stepOk_writeNvmLoop addr data _ _) fun _ =>
        stepOk_seqU (stepOk_setNvmLock addr true _) fun _ =>
          stepOk_pure addr _ _

theorem stepOk_getNvmBytes {E : Type} (addr : Nat) (resps : List (I2CResp E)) :
    StepOk addr resps (getNvmBytes addr resps) :=
  stepOk_andThen (stepOk_getNvm addr resps) fun _ _ => stepOk_pure addr _ _

theorem stepOk_writeNvmBytes {E : Type} (addr : Nat) (data : List Nat)
    (resps : List (I2CResp E)) : StepOk addr resps (writeNvmBytes addr data resps) :=
  stepOk_writeNvm addr _ resps

/-! ## Busy-poll characterisation of `nvm_wait` -/

/-- Oracle answering `k` poll iterations with the busy byte `b` (address
write acknowledged, then the data byte `b`). -/
def busyR {E : Type} (b : Nat) : Nat → List (I2CResp E)
  | 0 => []
  | k + 1 => .ok [] :: .ok [b] :: busyR b k

/-- The trace of `k` poll iterations of `nvm_wait`. -/
def pollCalls (addr : Nat) : Nat → List I2CCall
  | 0 => []
  | k + 1 => .wr addr [Register.CTRL0.code] :: .rd addr 1 :: pollCalls addr k

theorem busyR_length {E : Type} (b k : Nat) : (busyR (E := E) b k).length = 2 * k := by
  induction k with
  | zero => rfl
  | succ k ih => simp [busyR, ih]; omega

theorem readReg_ok1 {E : Type} (addr : Nat) (reg : Register) (a : List Nat) (v : Nat)
    (rest : List (I2CResp E)) :
    readReg addr reg (.ok a :: .ok [v] :: rest) =
      ⟨.ok v, rest, [.wr addr [reg.code], .rd addr 1]⟩ := rfl

theorem readReg_fail0 {E : Type} (addr : Nat) (reg : Register) (e : E)
    (rest : List (I2CResp E)) :
    readReg addr reg (.fail e :: rest) =
      ⟨.err (.I2CError e), rest, [.wr addr [reg.code]]⟩ := rfl

theorem nvmWaitAux_clear {E : Type} (addr : Nat) (k : Nat) :
    ∀ fuel, k < fuel → ∀ (b v : Nat), b &&& CTRL0CmdMask.REQ ≠ 0 →
      v &&& CTRL0CmdMask.REQ = 0 → ∀ rest : List (I2CResp E),
      nvmWaitAux addr fuel (busyR b k ++ .ok [] :: .ok [v] :: rest) =
        ⟨.ok (), rest, pollCalls addr (k + 1)⟩ := by
  induction k with
  | zero =>
    intro fuel hf b v hb hv rest
    match fuel, hf with
    | fuel + 1, _ =>
      simp only [busyR, List.nil_append, nvmWaitAux, readReg_ok1, andThen_mk_ok]
      rw [if_pos hv]
      simp [pureStep, pollCalls]
  | succ k ih =>
    intro fuel hf b v hb hv rest
    match fuel, hf with
    | fuel + 1, hf =>
      simp only [busyR, List.cons_append, nvmWaitAux, readReg_ok1, andThen_mk_ok]
      rw [if_neg hb, ih fuel (by omega) b v hb hv rest]
      simp [pollCalls]

theorem nvmWaitAux_fail {E : Type} (addr : Nat) (k : Nat) :
    ∀ fuel, k < fuel → ∀ (b : Nat) (e : E), b &&& CTRL0CmdMask.REQ ≠ 0 →
      ∀ rest : List (I2CResp E),
      nvmWaitAux addr fuel (busyR b k ++ .fail e :: rest) =
        ⟨.err (.I2CError e), rest, pollCalls addr k ++ [.wr addr [Register.CTRL0.code]]⟩ := by
  induction k with
  | zero =>
    intro fuel hf b e hb rest
    match fuel, hf with
    | fuel + 1, _ =>
      simp only [busyR, List.nil_append, nvmWaitAux, readReg_fail0, pollCalls]
      rfl
  | succ k ih =>
    intro fuel hf b e hb rest
    match fuel, hf with
    | fuel + 1, hf =>
      simp only [busyR, List.cons_append, nvmWaitAux, readReg_ok1, andThen_mk_ok]
      rw [if_neg hb, ih fuel (by omega) b e hb rest]
      simp [pollCalls]

theorem nvmWaitAux_busy_blocked {E : Type} (addr : Nat) (fuel : Nat) :
    ∀ (k b : Nat), b &&& CTRL0CmdMask.REQ ≠ 0 →
      (nvmWaitAux addr fuel (busyR (E := E) b k)).out = .blocked := by
  induction fuel with
  | zero => intro k b hb; rfl
  | succ fuel ih =>
    intro k b hb
    match k with
    | 0 => rfl
    | k + 1 =>
      simp only [busyR, nvmWaitAux, readReg_ok1, andThen_mk_ok]
      rw [if_neg hb]
      simp [ih k b hb]

/-! ## Trace-shape helpers -/

theorem andThen_calls_append {E α β : Type} (s : Step E α)
    (f : α → List (I2CResp E) → Step E β) :
    ∃ t, (andThen s f).calls = s.calls ++ t := by
  match hout : s.out with
  | .ok a => exact ⟨(f a s.resps).calls, by simp [andThen, hout]⟩
  | .err e => exact ⟨[], by simp [andThen, hout]⟩
  | .blocked => exact ⟨[], by simp [andThen, hout]⟩

theorem i2cWriteCall_calls {E : Type} (addr : Nat) (bytes : List Nat)
    (resps : List (I2CResp E)) : (i2cWriteCall addr bytes resps).calls = [.wr addr bytes] := by
  match resps with
  | [] => rfl
  | .ok v :: rest => rfl
  | .fail e :: rest => rfl

/-- Whatever the oracle does, the very first transport call of
`set_nvm_lock(false)` is the unlock-password write. -/
theorem setNvmLock_false_calls_head {E : Type} (addr : Nat) (resps : List (I2CResp E)) :
    ∃ t, (setNvmLock addr false resps).calls =
      .wr addr [Register.Password.code, 0x47] :: t := by
  obtain ⟨t, ht⟩ :=
    andThen_calls_append (write addr .Password 0x47 resps) fun _ r => nvmWait addr r
  exact ⟨t, by rw [show (setNvmLock addr false resps).calls =
    (andThen (write addr .Password 0x47 resps) fun _ r => nvmWait addr r).calls from rfl,
    ht, show (write addr .Password 0x47 resps).calls = [.wr addr [Register.Password.code, 0x47]]
      from i2cWriteCall_calls addr _ resps]; rfl⟩

theorem getNvm_calls_head {E : Type} (addr : Nat) (resps : List (I2CResp E)) :
    (getNvm addr resps).calls.head? = some (.wr addr [Register.Password.code, 0x47]) := by
  obtain ⟨t1, h1⟩ := setNvmLock_false_calls_head addr resps
  obtain ⟨t2, h2⟩ := andThen_calls_append (setNvmLock addr false resps)
    fun _ r1 => andThen (getNvmLoop addr [0, 1, 2, 3, 4] r1) fun buf r2 =>
      seqU (setNvmLock addr true r2) fun r3 => pureStep buf r3
  rw [show (getNvm addr resps).calls =
    (andThen (setNvmLock addr false resps) fun _ r1 =>
      andThen (getNvmLoop addr [0, 1, 2, 3, 4] r1) fun buf r2 =>
        seqU (setNvmLock addr true r2) fun r3 => pureStep buf r3).calls from rfl, h2, h1]
  rfl

theorem writeNvm_calls_head {E : Type} (addr : Nat) (data : List Nat)
    (resps : List (I2CResp E)) :
    (writeNvm addr data resps).calls.head? = some (.wr addr [Register.Password.code, 0x47]) := by
  obtain ⟨t1, h1⟩ := setNvmLock_false_calls_head addr resps
  obtain ⟨t2, h2⟩ := andThen_calls_append (setNvmLock addr false resps)
    fun _ r1 => seqU (deleteNvm addr r1) fun r2 =>
      seqU (writeNvmLoop addr data [0, 1, 2, 3, 4] r2) fun r3 =>
        seqU (setNvmLock addr true r3) fun r4 => pureStep () r4
  rw [show (writeNvm addr data resps).calls =
    (andThen (setNvmLock addr false resps) fun _ r1 =>
      seqU (deleteNvm addr r1) fun r2 =>
        seqU (writeNvmLoop addr data [0, 1, 2, 3, 4] r2) fun r3 =>
          seqU (setNvmLock addr true r3) fun r4 => pureStep () r4).calls from rfl, h2, h1]
  rfl

theorem getNvmBytes_calls_head {E : Type} (addr : Nat) (resps : List (I2CResp E)) :
    (getNvmBytes addr resps).calls.head? =
      some (.wr addr [Register.Password.code, 0x47]) := by
  obtain ⟨t, ht⟩ := andThen_calls_append (getNvm addr resps)
    fun data r => pureStep (sectorsToBytes data) r
  rw [show (getNvmBytes addr resps).calls =
    (andThen (getNvm addr resps) fun data r => pureStep (sectorsToBytes data) r).calls
    from rfl, ht]
  rw [List.head?_append, getNvm_calls_head]
  rfl

/-! ## Claim theorems -/

/-- C2: for every 40-byte array, splitting it into five 8-byte chunks and
decoding each as a little-endian 64-bit sector (as `write_nvm_bytes` does),
then serialising the five sectors back into 40 bytes in index order,
little-endian per sector (as `get_nvm_bytes` does), yields the array
unchanged. -/
theorem claim_C2 (data : List Nat) (hl : data.length = 40)
    (hb : ∀ b ∈ data, b < 256) : sectorsToBytes (bytesToSectors data) = data :=
  sectorsToBytes_bytesToSectors data hl hb

theorem claim_C2_witness :
    (List.replicate 40 2).length = 40 ∧
      sectorsToBytes (bytesToSectors (List.replicate 40 2)) = List.replicate 40 2 :=
  ⟨rfl, claim_C2 (List.replicate 40 2) rfl (by decide)⟩

/-- C10: for every 40-byte input, the `try_into().unwrap()` slice-to-array
conversions inside `write_nvm_bytes` and the slice assignments inside
`get_nvm_bytes` are in bounds and succeed: the checked versions (in which the
panic branches return `none`) return exactly the unchecked results. -/
theorem claim_C10 (data s : List Nat) (hl : data.length = 40) :
    bytesToSectorsChecked data = some (bytesToSectors data) ∧
      sectorsToBytesChecked s = some (sectorsToBytes s) :=
  ⟨bytesToSectorsChecked_eq data hl, sectorsToBytesChecked_eq s⟩

theorem claim_C10_witness :
    bytesToSectorsChecked (List.replicate 40 3) =
        some (bytesToSectors (List.replicate 40 3)) ∧
      sectorsToBytesChecked [1, 2, 3, 4, 5] = some (sectorsToBytes [1, 2, 3, 4, 5]) :=
  claim_C10 (List.replicate 40 3) [1, 2, 3, 4, 5] rfl

/-- C5: if any step of `get_nvm` or `write_nvm` fails with a transport error,
the sequence returns that error as its outcome, issued exactly one transport
call per consumed oracle response with the failing response consumed last (so
no further sector command and no re-lock follows the failing step), and left
the rest of the oracle untouched. -/
theorem claim_C5 {E : Type} (addr : Nat) (d : List Nat) (resps : List (I2CResp E))
    (e : E) :
    ((getNvm addr resps).out = .err (.I2CError e) →
      ∃ pre q, resps = pre ++ (getNvm addr resps).resps ∧
        (getNvm addr resps).calls.length = pre.length ∧ pre = q ++ [.fail e]) ∧
    ((writeNvm addr d resps).out = .err (.I2CError e) →
      ∃ pre q, resps = pre ++ (writeNvm addr d resps).resps ∧
        (writeNvm addr d resps).calls.length = pre.length ∧ pre = q ++ [.fail e]) := by
  constructor
  · intro he
    obtain ⟨pre, hpre, hlen, herr, _⟩ := stepOk_getNvm addr resps
    obtain ⟨q, hq⟩ := herr e he
    exact ⟨pre, q, hpre, hlen (by simp [he]), hq⟩
  · intro he
    obtain ⟨pre, hpre, hlen, herr, _⟩ := stepOk_writeNvm addr d resps
    obtain ⟨q, hq⟩ := herr e he
    exact ⟨pre, q, hpre, hlen (by simp [he]), hq⟩

theorem claim_C5_witness :
    ∃ pre q, ([I2CResp.fail 7] : List (I2CResp Nat)) =
        pre ++ (getNvm 0x28 [I2CResp.fail 7]).resps ∧
      (getNvm (E := Nat) 0x28 [I2CResp.fail 7]).calls.length = pre.length ∧
      pre = q ++ [I2CResp.fail 7] :=
  (claim_C5 0x28 [] [I2CResp.fail 7] 7).1 (by decide)

/-- C6: `nvm_wait` busy-polls the CTRL0 request bit with no iteration bound:
after any number `k` of busy polls it returns `Ok` on the first read whose
`REQ` bit is clear, consuming exactly those polls and leaving the rest of the
oracle untouched; a transport failure is propagated immediately; and if every
read shows the bit set it never returns, whatever the (arbitrarily large)
number of busy responses the device supplies. -/
theorem claim_C6 {E : Type} (addr k b v : Nat) (e : E) (rest : List (I2CResp E)) :
    (b &&& CTRL0CmdMask.REQ ≠ 0 → v &&& CTRL0CmdMask.REQ = 0 →
      nvmWait addr (busyR b k ++ .ok [] :: .ok [v] :: rest) =
        ⟨.ok (), rest, pollCalls addr (k + 1)⟩) ∧
    (b &&& CTRL0CmdMask.REQ ≠ 0 →
      nvmWait addr (busyR b k ++ .fail e :: rest) =
        ⟨.err (.I2CError e), rest,
          pollCalls addr k ++ [.wr addr [Register.CTRL0.code]]⟩) ∧
    (b &&& CTRL0CmdMask.REQ ≠ 0 →
      (nvmWait addr (busyR (E := E) b k)).out = .blocked) := by
  refine ⟨fun hb hv => ?_, fun hb => ?_, fun hb => ?_⟩
  · have hlen : (busyR (E := E) b k ++ .ok [] :: .ok [v] :: rest).length =
        2 * k + 2 + rest.length := by
      simp [busyR_length]
      omega
    rw [nvmWait, hlen]
    exact nvmWaitAux_clear addr k _ (by omega) b v hb hv rest
  · have hlen : (busyR (E := E) b k ++ .fail e :: rest).length =
        2 * k + 1 + rest.length := by
      simp [busyR_length]
      omega
    rw [nvmWait, hlen]
    exact nvmWaitAux_fail addr k _ (by omega) b e hb rest
  · rw [nvmWait]
    exact nvmWaitAux_busy_blocked addr _ k b hb

theorem claim_C6_witness :
    (nvmWait (E := Nat) 0x28 (busyR 0x10 1 ++ .ok [] :: .ok [0] :: []) =
        ⟨.ok (), [], pollCalls 0x28 2⟩) ∧
      (nvmWait (E := Nat) 0x28 (busyR 0x10 1 ++ .fail 7 :: []) =
        ⟨.err (.I2CError 7), [], pollCalls 0x28 1 ++ [.wr 0x28 [Register.CTRL0.code]]⟩) ∧
      (nvmWait (E := Nat) 0x28 (busyR 0x10 3)).out = .blocked :=
  ⟨(claim_C6 0x28 1 0x10 0 7 []).1 (by decide) (by decide),
    (claim_C6 0x28 1 0x10 0 7 []).2.1 (by decide),
    (claim_C6 0x28 3 0x10 0 7 []).2.2 (by decide)⟩

/-- C7: `set_pdo` rejects every non-Fixed PDO with `InvalidPdo`, issuing zero
transport calls and consuming no oracle entry; for a Fixed PDO it issues
exactly one transport write of the PDO's 32-bit little-endian encoding to the
register slot selected by the channel. -/
theorem claim_C7 {E : Type} (addr : Nat) (ch : PdoChannel) (p : Pdo)
    (resps : List (I2CResp E)) (v c fl : Nat) (a : List Nat)
    (rest : List (I2CResp E)) :
    (p.isFixed = false → setPdo addr ch p resps = ⟨.err .InvalidPdo, resps, []⟩) ∧
      setPdo addr ch (.Fixed v c fl) (.ok a :: rest) =
        ⟨.ok (), rest, [.wr addr (ch.reg.code :: toLeBytes 4 (Pdo.Fixed v c fl).bits)]⟩ := by
  constructor
  · intro hp
    cases p with
    | Fixed v' c' f' => simp [Pdo.isFixed] at hp
    | Variable raw => rfl
    | Battery raw => rfl
  · rfl

theorem claim_C7_witness :
    (setPdo (E := Nat) 0x28 .PDO2 (.Variable 5) [] = ⟨.err .InvalidPdo, [], []⟩) ∧
      setPdo (E := Nat) 0x28 .PDO2 (.Fixed 9 2 1) (.ok [] :: []) =
        ⟨.ok (), [],
          [.wr 0x28 (PdoChannel.PDO2.reg.code :: toLeBytes 4 (Pdo.Fixed 9 2 1).bits)]⟩ :=
  ⟨(claim_C7 0x28 .PDO2 (.Variable 5) [] 9 2 1 [] []).1 rfl,
    (claim_C7 0x28 .PDO2 (.Variable 5) [] 9 2 1 [] []).2⟩

/-- C8: `set_num_pdo` writes the count to `DPMPDONumb` exactly when
`1 <= n <= 3` (one transport write); for every other `n`, including 0 and 4,
it returns `OutaRangePdo` with zero transport calls. -/
theorem claim_C8 {E : Type} (addr n : Nat) (resps : List (I2CResp E)) (a : List Nat)
    (rest : List (I2CResp E)) :
    (1 ≤ n ∧ n ≤ 3 → setNumPdo addr n (.ok a :: rest) =
      ⟨.ok (), rest, [.wr addr [Register.DPMPDONumb.code, n]]⟩) ∧
    (¬(1 ≤ n ∧ n ≤ 3) → setNumPdo addr n resps = ⟨.err .OutaRangePdo, resps, []⟩) := by
  constructor
  · intro h
    simp only [setNumPdo, if_pos h]
    rfl
  · intro h
    simp only [setNumPdo, if_neg h]

theorem claim_C8_witness :
    (setNumPdo (E := Nat) 0x28 2 (.ok [] :: []) =
        ⟨.ok (), [], [.wr 0x28 [Register.DPMPDONumb.code, 2]]⟩) ∧
      (setNumPdo (E := Nat) 0x28 0 [] = ⟨.err .OutaRangePdo, [], []⟩) ∧
      (setNumPdo (E := Nat) 0x28 4 [] = ⟨.err .OutaRangePdo, [], []⟩) :=
  ⟨(claim_C8 0x28 2 [] [] []).1 (by decide),
    (claim_C8 0x28 0 [] [] []).2 (by decide),
    (claim_C8 0x28 4 [] [] []).2 (by decide)⟩

/-- C9 counterexample: `Address::Custom(0x80).addr()` is `0x80`, which is not
a valid 7-bit bus address, refuting the claim that `addr()` always yields a
value at most `0x7F`. -/
theorem claim_C9_counterexample :
    (Address.Custom 0x80).addr = 0x80 ∧ ¬(Address.Custom 0x80).addr ≤ 0x7F := by
  decide

/-- C9 amended: the `Default` and `Strap` addresses are valid 7-bit bus
addresses; `Custom` returns the caller-supplied byte unchanged (it is not
validated); the address is computed once by `STUSB4500::new` from
`Address::addr`, and every transport call the NVM operations issue is
directed at that stored address, unchanged. -/
theorem claim_C9_amended {E : Type} (a1 a0 : Bool) (v : Nat) (a : Address)
    (d : List Nat) (resps : List (I2CResp E)) :
    Address.Default.addr ≤ 0x7F ∧ (Address.Strap a1 a0).addr ≤ 0x7F ∧
      (Address.Custom v).addr = v ∧ (STUSB4500.new a).address = a.addr ∧
      (∀ c ∈ (getNvm (STUSB4500.new a).address resps).calls,
        c.busAddr = (STUSB4500.new a).address) ∧
      (∀ c ∈ (writeNvm (STUSB4500.new a).address d resps).calls,
        c.busAddr = (STUSB4500.new a).address) := by
  refine ⟨by decide, ?_, rfl, rfl, ?_, ?_⟩
  · cases a1 <;> cases a0 <;> decide
  · obtain ⟨_, _, _, _, h⟩ := stepOk_getNvm (STUSB4500.new a).address resps
    exact h
  · obtain ⟨_, _, _, _, h⟩ := stepOk_writeNvm (STUSB4500.new a).address d resps
    exact h

theorem claim_C9_witness :
    (Address.Strap true true).addr ≤ 0x7F ∧
      I2CCall.busAddr (.wr 0x28 [Register.Password.code, 0x47]) =
        (STUSB4500.new .Default).address :=
  ⟨(claim_C9_amended (E := Nat) true true 5 .Default [] []).2.1,
    (claim_C9_amended (E := Nat) true true 5 .Default [] []).2.2.2.2.1 _ (by decide)⟩

/-- C3 counterexample: on a responsive idle device the actual call trace of
`write_nvm` is not the sequence the claim describes: the code's erase phase
has an extra leading command cycle (`CTRL1 <- 0xFA` erase-mask load, `CTRL0`
request, poll idle) before the Soft-Program-Sector cycle, so the actual trace
has 63 transport calls where the claimed sequence has 59. -/
theorem claim_C3_counterexample :
    (writeNvm (E := Nat) 0x28 [0, 0, 0, 0, 0] (writeNvmR [])).calls ≠
        writeNvmCallsClaimed 0x28 0 0 0 0 0 ∧
      (writeNvm (E := Nat) 0x28 [0, 0, 0, 0, 0] (writeNvmR [])).calls.length = 63 ∧
      (writeNvmCallsClaimed 0x28 0 0 0 0 0).length = 59 := by
  rw [writeNvm_idle_run]
  exact ⟨by decide, by decide, by decide⟩

/-- C3 amended: a full NVM write performs, in order: unlock (poll idle); an
unconditional erase phase consisting of an erase-mask load cycle
(`CTRL1 <- 0xFA`, request, poll idle), a Soft-Program-Sector cycle (poll
idle) and an Erase-Sector cycle (poll idle); then for each sector index
`0..5` in increasing order, the 8 sector bytes into the RW buffer, a
Write-Program-Load cycle (poll idle), and a Program-Sector cycle with that
sector's select bits (poll idle); then lock (poll idle). -/
theorem claim_C3_amended {E : Type} (addr d0 d1 d2 d3 d4 : Nat)
    (rest : List (I2CResp E)) :
    writeNvm addr [d0, d1, d2, d3, d4] (writeNvmR rest) =
      ⟨.ok (), rest, writeNvmCalls addr d0 d1 d2 d3 d4⟩ :=
  writeNvm_idle_run addr d0 d1 d2 d3 d4 rest

/-- C4: a full NVM read performs, after unlocking, for each sector index
`0..5` in increasing order: the Read opcode into `CTRL1`, the default command
bits together with that sector's select bits into `CTRL0`, a poll until the
busy bit clears, then a read of the 8-byte RW buffer; the five 64-bit sector
values are returned in index order and `get_nvm_bytes` assembles them into
the 40-byte image in index order, little-endian within each sector. -/
theorem claim_C4 {E : Type} (addr v0 v1 v2 v3 v4 : Nat) (h0 : v0 < 2 ^ 64)
    (h1 : v1 < 2 ^ 64) (h2 : v2 < 2 ^ 64) (h3 : v3 < 2 ^ 64) (h4 : v4 < 2 ^ 64)
    (rest : List (I2CResp E)) :
    getNvm addr (getNvmR (toLeBytes 8 v0) (toLeBytes 8 v1) (toLeBytes 8 v2)
        (toLeBytes 8 v3) (toLeBytes 8 v4) rest) =
      ⟨.ok [v0, v1, v2, v3, v4], rest, getNvmCalls addr⟩ ∧
    getNvmBytes addr (getNvmR (toLeBytes 8 v0) (toLeBytes 8 v1) (toLeBytes 8 v2)
        (toLeBytes 8 v3) (toLeBytes 8 v4) rest) =
      ⟨.ok (toLeBytes 8 v0 ++ toLeBytes 8 v1 ++ toLeBytes 8 v2 ++ toLeBytes 8 v3 ++
        toLeBytes 8 v4), rest, getNvmCalls addr⟩ := by
  have hget := getNvm_idle_run addr (toLeBytes 8 v0) (toLeBytes 8 v1) (toLeBytes 8 v2)
    (toLeBytes 8 v3) (toLeBytes 8 v4) rest
  rw [take_eight_toLeBytes, take_eight_toLeBytes, take_eight_toLeBytes,
    take_eight_toLeBytes, take_eight_toLeBytes, fromLeBytes_toLeBytes 8 v0 h0,
    fromLeBytes_toLeBytes 8 v1 h1, fromLeBytes_toLeBytes 8 v2 h2,
    fromLeBytes_toLeBytes 8 v3 h3, fromLeBytes_toLeBytes 8 v4 h4] at hget
  refine ⟨hget, ?_⟩
  show andThen (getNvm addr _) _ = _
  rw [hget, andThen_mk_ok]
  simp [pureStep, sectorsToBytes, List.append_assoc]

theorem claim_C4_witness :
    getNvm (E := Nat) 0x28 (getNvmR (toLeBytes 8 0) (toLeBytes 8 1) (toLeBytes 8 2)
        (toLeBytes 8 3) (toLeBytes 8 4) []) =
      ⟨.ok [0, 1, 2, 3, 4], [], getNvmCalls 0x28⟩ ∧
    getNvmBytes (E := Nat) 0x28 (getNvmR (toLeBytes 8 0) (toLeBytes 8 1) (toLeBytes 8 2)
        (toLeBytes 8 3) (toLeBytes 8 4) []) =
      ⟨.ok (toLeBytes 8 0 ++ toLeBytes 8 1 ++ toLeBytes 8 2 ++ toLeBytes 8 3 ++
        toLeBytes 8 4), [], getNvmCalls 0x28⟩ :=
  claim_C4 0x28 0 1 2 3 4 (by decide) (by decide) (by decide) (by decide) (by decide) []

/-- C1 counterexample: when a mid-sequence step of `get_nvm` fails (here the
first sector-read command, right after a successful unlock), the operation
returns the transport error and the lock-restore write (`Password <- 0x00`)
is never issued — refuting the claim that the lock-restore step is still
attempted on failure. -/
theorem claim_C1_counterexample :
    (getNvm (E := Nat) 0x28 [.ok [], .ok [], .ok [0], .fail 7]).out =
        .err (.I2CError 7) ∧
      I2CCall.wr 0x28 [Register.Password.code, 0x00] ∉
        (getNvm (E := Nat) 0x28 [.ok [], .ok [], .ok [0], .fail 7]).calls := by
  decide

/-- C1 amended: every public NVM operation (`get_nvm`, `get_nvm_bytes`,
`write_nvm`, `write_nvm_bytes`) begins by writing the unlock password,
whatever the transport does; on success against a responsive device the trace
ends with the lock-password write and its idle poll; and when a mid-sequence
step fails with a transport error the operation returns that error having
issued exactly one call per consumed response, the failing response last — in
particular the lock-restore step is not attempted after a failure. -/
theorem claim_C1_amended {E : Type} (addr d0 d1 d2 d3 d4 : Nat)
    (data data40 : List Nat) (b0 b1 b2 b3 b4 : List Nat)
    (resps rest : List (I2CResp E)) :
    ((getNvm addr resps).calls.head? = some (.wr addr [Register.Password.code, 0x47]) ∧
      (getNvmBytes addr resps).calls.head? =
        some (.wr addr [Register.Password.code, 0x47]) ∧
      (writeNvm addr data resps).calls.head? =
        some (.wr addr [Register.Password.code, 0x47]) ∧
      (writeNvmBytes addr data40 resps).calls.head? =
        some (.wr addr [Register.Password.code, 0x47])) ∧
    ((∃ pref, (getNvm addr (getNvmR b0 b1 b2 b3 b4 rest)).calls =
        pref ++ lockCalls addr) ∧
      (∃ pref, (writeNvm addr [d0, d1, d2, d3, d4] (writeNvmR rest)).calls =
        pref ++ lockCalls addr)) ∧
    ((∀ e : E, (getNvm addr resps).out = .err (.I2CError e) →
        ∃ pre q, resps = pre ++ (getNvm addr resps).resps ∧
          (getNvm addr resps).calls.length = pre.length ∧ pre = q ++ [.fail e]) ∧
      (∀ e : E, (writeNvm addr data resps).out = .err (.I2CError e) →
        ∃ pre q, resps = pre ++ (writeNvm addr data resps).resps ∧
          (writeNvm addr data resps).calls.length = pre.length ∧
          pre = q ++ [.fail e])) := by
  refine ⟨⟨getNvm_calls_head addr resps, getNvmBytes_calls_head addr resps,
    writeNvm_calls_head addr data resps, writeNvm_calls_head addr _ resps⟩,
    ⟨?_, ?_⟩, fun e he => ?_, fun e he => ?_⟩
  · refine ⟨unlockCalls addr ++ readSectorCalls addr 0 ++ readSectorCalls addr 1 ++
      readSectorCalls addr 2 ++ readSectorCalls addr 3 ++ readSectorCalls addr 4, ?_⟩
    rw [getNvm_idle_run]
    rfl
  · refine ⟨unlockCalls addr ++ cmdCycle addr 0xFA CTRL0CmdMask.defaultBits ++
      cmdCycle addr NVMCmd.SoftProgSector.code CTRL0CmdMask.defaultBits ++
      cmdCycle addr NVMCmd.EraseSector.code CTRL0CmdMask.defaultBits ++
      progSectorCalls addr 0 d0 ++ progSectorCalls addr 1 d1 ++ progSectorCalls addr 2 d2 ++
      progSectorCalls addr 3 d3 ++ progSectorCalls addr 4 d4, ?_⟩
    rw [writeNvm_idle_run]
    rfl
  · obtain ⟨pre, hpre, hlen, herr, _⟩ := stepOk_getNvm addr resps
    obtain ⟨q, hq⟩ := herr e he
    exact ⟨pre, q, hpre, hlen (by simp [he]), hq⟩
  · obtain ⟨pre, hpre, hlen, herr, _⟩ := stepOk_writeNvm addr data resps
    obtain ⟨q, hq⟩ := herr e he
    exact ⟨pre, q, hpre, hlen (by simp [he]), hq⟩

theorem claim_C1_witness :
    ∃ pre q, ([I2CResp.fail 9] : List (I2CResp Nat)) =
        pre ++ (getNvm 0x28 [I2CResp.fail 9]).resps ∧
      (getNvm (E := Nat) 0x28 [I2CResp.fail 9]).calls.length = pre.length ∧
      pre = q ++ [I2CResp.fail 9] :=
  (claim_C1_amended 0x28 0 0 0 0 0 [] [] [] [] [] [] [] [I2CResp.fail 9] []).2.2.1 9
    (by decide)

end Stusb
